import Mathlib

/-!
Shallow embedding of netmaker's peer-configuration synchronization core:
the internet-gateway controller handlers (`createInternetGw`,
`updateInternetGw`, `deleteInternetGw`), the MQ publishers
(`NodeUpdate`, `PublishSingleHostPeerUpdate`, `PublishDeletedNodePeerUpdate`,
`PublishDeletedClientPeerUpdate`, `PublishMqUpdatesForDeletedNode`,
`sendPeers`) and the DNS aggregation helper `getExtClientDNS`.

External collaborators (the registry, the JSON codec, the broker client and
the `logic` package helpers that are not part of the excerpt) are modelled as
an explicit environment record; each handler is a pure function from this
environment to its HTTP result together with the ordered list of observable
effects it emits (persistence writes, broker publishes, DNS refresh).
-/

namespace Netmaker

/-- Operating-system classes of a host (`models.OS_Types`). -/
inductive OSType
  | linux
  | windows
  | macos
  | freebsd
  | iot
  | other
deriving DecidableEq, Repr

/-- A host record; only the fields the excerpt reads. -/
structure Host where
  id : String
  os : OSType
deriving DecidableEq, Repr

/-- Internet-gateway request parameters (`models.InetNodeReq`). -/
structure InetNodeReq where
  inetNodeClientIDs : List String
deriving DecidableEq, Repr

/-- The empty gateway-parameter record. -/
def InetNodeReq.empty : InetNodeReq := { inetNodeClientIDs := [] }

/-- Modelled from the spec: the node action tag `models.NODE_DELETE`,
consumed by the receiving host (the constant itself is outside the excerpt). -/
def NODE_DELETE : String := "delete"

/-- A node record; the fields the excerpt reads or writes, plus the
gateway-parameter attributes manipulated by `SetInternetGw`/`UnsetInternetGw`. -/
structure Node where
  id : String
  hostID : String
  network : String
  isInternetGateway : Bool
  isGw : Bool
  ingressDNS : String
  pendingDelete : Bool
  action : String
  inetNodeReq : InetNodeReq
deriving DecidableEq, Repr

/-- An external client (`models.ExtClient`); addresses are strings with `""`
standing for an absent address, as in the source's emptiness tests. -/
structure ExtClient where
  clientID : String
  network : String
  address : String
  address6 : String
deriving DecidableEq, Repr

/-- DNS update actions (`models.DNSUpdateAction`); only `insert` is emitted
by the aggregation helpers in the excerpt. -/
inductive DNSUpdateAction
  | deleteByIP
  | deleteByName
  | replaceName
  | replaceIP
  | insert
deriving DecidableEq, Repr

/-- A DNS record (`models.DNSUpdate`). -/
structure DNSUpdate where
  action : DNSUpdateAction
  name : String
  address : String
deriving DecidableEq, Repr

/-! ## Gateway state transitions

`logic.SetInternetGw` and `logic.UnsetInternetGw` live in the `logic`
package, outside the excerpt; they are modelled from the spec. -/

/-- Modelled from the spec: `logic.SetInternetGw` — "sets gateway attributes
on the node": marks the node as an internet gateway and installs the
request's gateway parameters. -/
def SetInternetGw (node : Node) (req : InetNodeReq) : Node :=
  { node with isInternetGateway := true, inetNodeReq := req }

/-- Modelled from the spec: `logic.UnsetInternetGw` — "unconditional clear of
gateway attributes regardless of current state": drops the gateway flag and
the gateway parameters. -/
def UnsetInternetGw (node : Node) : Node :=
  { node with isInternetGateway := false, inetNodeReq := InetNodeReq.empty }

/-! ## Controller environment and effects -/

/-- Observable effects of a gateway-controller handler, in emission order.
`resetFailedOverPeer` and the broadcasts are dispatched asynchronously in the
source; the trace records every task the handler dispatches. -/
inductive CtrlEffect
  | resetFailedOverPeer (network : String)
  | publishPeerUpdate
  | upsertNode (n : Node)
deriving DecidableEq, Repr

/-- The HTTP-facing outcome of a handler: a structured error response
(kind `"badrequest"` or `"internal"`), a 200 with an informational message,
or a 200 carrying the (API view of the) node. -/
inductive HandlerResult
  | errorResponse (kind : String)
  | successMessage (msg : String)
  | okNode (n : Node)
deriving DecidableEq, Repr

/-- Environment of the controller handlers: the outcomes of every external
call a handler can make (`logic.ValidateParams`, JSON body decoding,
`logic.GetHost`, `logic.ValidateInetGwReq`, `servercfg.IsPro`,
`logic.FailOverExists`, `logic.UpsertNode`).
`failOverExists` is modelled from the spec: per network, whether an active
failover peer is currently present. -/
structure CtrlEnv where
  validateParams : Option Node
  decodeBody : Option InetNodeReq
  getHost : String → Option Host
  validateInetGwReq : Node → InetNodeReq → Bool → Bool
  isPro : Bool
  failOverExists : String → Bool
  upsertOK : Bool

/-- Embedding of `createInternetGw` (POST `inet_gw`): parameter validation,
idempotent short-circuit when the node is already a gateway, body decoding,
host lookup, Linux OS-class guard, semantic validation, `SetInternetGw`,
Pro-gated asynchronous failover reset plus broadcast, ingress-DNS default,
persistence, and the final detached peer broadcast. -/
def createInternetGw (env : CtrlEnv) : HandlerResult × List CtrlEffect :=
  match env.validateParams with
  | none => (.errorResponse "badrequest", [])
  | some node =>
    if node.isInternetGateway then
      (.successMessage "node is already acting as internet gateway", [])
    else
      match env.decodeBody with
      | none => (.errorResponse "badrequest", [])
      | some request =>
        match env.getHost node.hostID with
        | none => (.errorResponse "internal", [])
        | some host =>
          if host.os ≠ OSType.linux then
            (.errorResponse "badrequest", [])
          else if ¬ env.validateInetGwReq node request false then
            (.errorResponse "badrequest", [])
          else
            let node := SetInternetGw node request
            let asyncFailover :=
              if env.isPro ∧ env.failOverExists node.network then
                [CtrlEffect.resetFailedOverPeer node.network,
                 CtrlEffect.publishPeerUpdate]
              else []
            let node :=
              if node.isGw ∧ node.ingressDNS = "" then
                { node with ingressDNS := "1.1.1.1" }
              else node
            if env.upsertOK then
              (.okNode node,
               asyncFailover ++
                 [CtrlEffect.upsertNode node, CtrlEffect.publishPeerUpdate])
            else
              (.errorResponse "internal", asyncFailover)

/-- Embedding of `updateInternetGw` (PUT `inet_gw`): parameter validation,
body decoding, gateway-state precondition, semantic validation,
clear-then-set of the gateway attributes, persistence, detached broadcast. -/
def updateInternetGw (env : CtrlEnv) : HandlerResult × List CtrlEffect :=
  match env.validateParams with
  | none => (.errorResponse "badrequest", [])
  | some node =>
    match env.decodeBody with
    | none => (.errorResponse "badrequest", [])
    | some request =>
      if ¬ node.isInternetGateway then
        (.errorResponse "badrequest", [])
      else if ¬ env.validateInetGwReq node request true then
        (.errorResponse "badrequest", [])
      else
        let node := SetInternetGw (UnsetInternetGw node) request
        if env.upsertOK then
          (.okNode node,
           [CtrlEffect.upsertNode node, CtrlEffect.publishPeerUpdate])
        else
          (.errorResponse "internal", [])

/-- Embedding of `deleteInternetGw` (DELETE `inet_gw`): parameter validation,
unconditional `UnsetInternetGw`, persistence, detached broadcast. -/
def deleteInternetGw (env : CtrlEnv) : HandlerResult × List CtrlEffect :=
  match env.validateParams with
  | none => (.errorResponse "badrequest", [])
  | some node =>
    let node := UnsetInternetGw node
    if env.upsertOK then
      (.okNode node,
       [CtrlEffect.upsertNode node, CtrlEffect.publishPeerUpdate])
    else
      (.errorResponse "internal", [])

/-- Modelled from the spec: the effect of `logic.ResetFailedOverPeer` on the
per-network failover state — "clears that network's active failover peer".
Applies a controller effect trace to the map from networks to whether an
active failover peer is present. -/
def applyFailover (failover : String → Bool) : List CtrlEffect → (String → Bool)
  | [] => failover
  | CtrlEffect.resetFailedOverPeer net :: rest =>
      applyFailover (fun n => if n = net then false else failover n) rest
  | _ :: rest => applyFailover failover rest

/-! ## MQ publishers -/

/-- Error outcomes of the MQ layer: a registry lookup failure, a JSON
serialization failure, or a broker publish failure/timeout. -/
inductive MqErr
  | registry
  | marshal
  | publishFail
deriving DecidableEq, Repr

/-- Observable effects of the MQ layer, in emission order. A publish effect
is recorded when the payload reaches the broker client (a publish attempt);
whether the broker accepted it is reported through `MqErr`. -/
inductive MqEffect
  | publishNodeUpdate (hostID : String) (n : Node)
  | publishPeerUpdate (hostID : String) (deletedNode : Option Node)
      (deletedClients : List ExtClient)
  | setDNS
  | setHost
  | timerCheckpoint
deriving DecidableEq, Repr

/-- Environment of the MQ publishers: outcomes of every external call
(`servercfg.IsMessageQueueBackend`, `logic.GetAllHosts`, `logic.GetAllNodes`,
`logic.GetHost`, `logic.GetPeerUpdateForHost` per host, JSON marshalling,
the broker `publish` per topic, `servercfg.IsDNSMode`, `servercfg.GetServer`).
`GetAllHosts` returns both a list and an error flag, since `sendPeers` keeps
iterating over the returned list even when the call reports an error. -/
structure MqEnv where
  mqBackend : Bool
  hostsList : List Host
  hostsErr : Bool
  allNodes : Option (List Node)
  getHost : String → Option Host
  peerViewOK : String → Bool
  marshalOK : Bool
  publishOK : String → Bool
  dnsMode : Bool
  server : String

/-- The per-host peer topic `peers/host/<hostID>/<serverID>`. -/
def peersTopic (env : MqEnv) (h : Host) : String :=
  "peers/host/" ++ h.id ++ "/" ++ env.server

/-- The node-update topic `node/update/<networkID>/<nodeID>`. -/
def nodeTopic (node : Node) : String :=
  "node/update/" ++ node.network ++ "/" ++ node.id

/-- Embedding of `PublishSingleHostPeerUpdate`: computes the peer view for
one host (`logic.GetPeerUpdateForHost`, with optional deleted-node and
deleted-client overlays), serializes it, and publishes it on the host's
peer topic. -/
def PublishSingleHostPeerUpdate (env : MqEnv) (host : Host)
    (_allNodes : List Node) (deletedNode : Option Node)
    (deletedClients : List ExtClient) : Option MqErr × List MqEffect :=
  if ¬ env.peerViewOK host.id then (some MqErr.registry, [])
  else if ¬ env.marshalOK then (some MqErr.marshal, [])
  else if env.publishOK (peersTopic env host) then
    (none, [MqEffect.publishPeerUpdate host.id deletedNode deletedClients])
  else
    (some MqErr.publishFail,
     [MqEffect.publishPeerUpdate host.id deletedNode deletedClients])

/-- Embedding of `NodeUpdate`: looks up the owning host (returning `nil`
when the lookup fails), checks the broker backend, serializes the node and
publishes it on the node-update topic. -/
def NodeUpdate (env : MqEnv) (node : Node) : Option MqErr × List MqEffect :=
  match env.getHost node.hostID with
  | none => (none, [])
  | some host =>
    if ¬ env.mqBackend then (none, [])
    else if ¬ env.marshalOK then (some MqErr.marshal, [])
    else if env.publishOK (nodeTopic node) then
      (none, [MqEffect.publishNodeUpdate host.id node])
    else
      (some MqErr.publishFail, [MqEffect.publishNodeUpdate host.id node])

/-- One iteration of the host loop of `PublishDeletedNodePeerUpdate`: the
Go loop reassigns `err` on every iteration (so the last host's outcome is
returned) and logs per-host failures without stopping. -/
def deletedNodeStep (env : MqEnv) (nodes : List Node) (delNode : Node)
    (acc : Option MqErr × List MqEffect) (host : Host) :
    Option MqErr × List MqEffect :=
  let r := PublishSingleHostPeerUpdate env host nodes (some delNode) []
  (r.1, acc.2 ++ r.2)

/-- Embedding of `PublishDeletedNodePeerUpdate`: broadcasts a peer update
with the deleted node as overlay to all hosts, continuing past per-host
failures. -/
def PublishDeletedNodePeerUpdate (env : MqEnv) (delNode : Node) :
    Option MqErr × List MqEffect :=
  if ¬ env.mqBackend then (none, [])
  else if env.hostsErr then (some MqErr.registry, [])
  else
    match env.allNodes with
    | none => (some MqErr.registry, [])
    | some nodes =>
      env.hostsList.foldl (deletedNodeStep env nodes delNode) (none, [])

/-- One iteration of the host loop of `PublishDeletedClientPeerUpdate`:
hosts of the IoT OS class are skipped (their `err` from the previous
iteration is left in place, as in the source). -/
def deletedClientStep (env : MqEnv) (nodes : List Node)
    (delClient : ExtClient) (acc : Option MqErr × List MqEffect)
    (host : Host) : Option MqErr × List MqEffect :=
  if host.os ≠ OSType.iot then
    let r := PublishSingleHostPeerUpdate env host nodes none [delClient]
    (r.1, acc.2 ++ r.2)
  else acc

/-- Embedding of `PublishDeletedClientPeerUpdate`: broadcasts a peer update
with the deleted external client as overlay to the hosts whose OS class is
not IoT, continuing past per-host failures. -/
def PublishDeletedClientPeerUpdate (env : MqEnv) (delClient : ExtClient) :
    Option MqErr × List MqEffect :=
  if ¬ env.mqBackend then (none, [])
  else if env.hostsErr then (some MqErr.registry, [])
  else
    match env.allNodes with
    | none => (some MqErr.registry, [])
    | some nodes =>
      env.hostsList.foldl (deletedClientStep env nodes delClient) (none, [])

/-- The in-memory marking performed by `PublishMqUpdatesForDeletedNode` on
the passed node copy before any announcement. -/
def markDeleted (node : Node) : Node :=
  { node with pendingDelete := true, action := NODE_DELETE }

/-- Embedding of `PublishMqUpdatesForDeletedNode`: marks the passed copy as
pending-delete with the delete action, optionally sends a node update to the
owning host (error logged), broadcasts the deleted-node peer update (error
logged), and refreshes DNS when DNS mode is enabled. The `gwClients`
argument is accepted and unused, as in the source. -/
def PublishMqUpdatesForDeletedNode (env : MqEnv) (node : Node)
    (sendNodeUpdate : Bool) (gwClients : List ExtClient) : List MqEffect :=
  let _ := gwClients
  let node := markDeleted node
  let t1 := if sendNodeUpdate then (NodeUpdate env node).2 else []
  let t2 := (PublishDeletedNodePeerUpdate env node).2
  let t3 := if env.dnsMode then [MqEffect.setDNS] else []
  t1 ++ t2 ++ t3

/-- Embedding of `sendPeers`, one scheduler tick acting on the process-wide
counter `peer_force_send`: retrieves hosts (an error is only logged) and
nodes (an error aborts the tick), increments the counter, and on reaching 5
refreshes the server host record (`servercfg.SetHost`), resets the counter,
runs the maintenance checkpoint (`logic.TimerCheckpoint`, error logged) and
broadcasts a peer update to every retrieved host (errors logged). Returns
the new counter value and the effect trace. -/
def sendPeers (env : MqEnv) (peer_force_send : Nat) : Nat × List MqEffect :=
  match env.allNodes with
  | none => (peer_force_send, [])
  | some nodes =>
    let c := peer_force_send + 1
    if c = 5 then
      (0,
       [MqEffect.setHost, MqEffect.timerCheckpoint] ++
         env.hostsList.foldl
           (fun effs host =>
             effs ++ (PublishSingleHostPeerUpdate env host nodes none []).2)
           [])
    else (c, [])

/-! ## DNS aggregation -/

/-- Embedding of `getExtClientDNS`: one insert record per external client
and address-presence test. The source's IPv6 branch assigns
`dns.Address = client.Address` (the IPv4 field), and the embedding keeps
that assignment verbatim. The client list stands for the result of
`logic.GetNetworkExtClients` (empty on lookup error, which is only logged). -/
def getExtClientDNS (clients : List ExtClient) : List DNSUpdate :=
  clients.foldl
    (fun alldns client =>
      let name := client.clientID ++ "." ++ client.network
      let alldns :=
        if client.address ≠ "" then
          alldns ++ [{ action := DNSUpdateAction.insert, name := name,
                       address := client.address }]
        else alldns
      let alldns :=
        if client.address6 ≠ "" then
          alldns ++ [{ action := DNSUpdateAction.insert, name := name,
                       address := client.address }]
        else alldns
      alldns)
    []

/-! ## Concrete fixtures -/

/-- A Linux-class host. -/
def linuxHost : Host := { id := "h1", os := OSType.linux }

/-- A Windows-class host. -/
def windowsHost : Host := { id := "h2", os := OSType.windows }

/-- An IoT-class host. -/
def iotHost : Host := { id := "h3", os := OSType.iot }

/-- A sample gateway request. -/
def sampleReq : InetNodeReq := { inetNodeClientIDs := ["c1"] }

/-- A sample non-gateway node owned by the Linux host. -/
def sampleNode : Node :=
  { id := "n1", hostID := "h1", network := "net1",
    isInternetGateway := false, isGw := false, ingressDNS := "",
    pendingDelete := false, action := "noop",
    inetNodeReq := InetNodeReq.empty }

/-- `sampleNode` already promoted to internet gateway. -/
def gwSampleNode : Node :=
  { sampleNode with isInternetGateway := true, inetNodeReq := sampleReq }

/-- A controller environment in which every external call succeeds. -/
def baseCtrlEnv : CtrlEnv :=
  { validateParams := some sampleNode
    decodeBody := some sampleReq
    getHost := fun i => if i = "h1" then some linuxHost else none
    validateInetGwReq := fun _ _ _ => true
    isPro := true
    failOverExists := fun _ => false
    upsertOK := true }

/-- An MQ environment in which every external call succeeds. -/
def baseMqEnv : MqEnv :=
  { mqBackend := true
    hostsList := [linuxHost, windowsHost]
    hostsErr := false
    allNodes := some [sampleNode]
    getHost := fun i => if i = "h1" then some linuxHost else none
    peerViewOK := fun _ => true
    marshalOK := true
    publishOK := fun _ => true
    dnsMode := true
    server := "srv" }

/-! ## Theorems -/

/-- C3: a promotion request against a node whose `is_internet_gateway` flag
is already set returns the informational success message and emits no
effect at all — no persistence write and no peer broadcast. -/
theorem createInternetGw_already_gateway (env : CtrlEnv) (node : Node)
    (h1 : env.validateParams = some node)
    (h2 : node.isInternetGateway = true) :
    createInternetGw env =
      (HandlerResult.successMessage "node is already acting as internet gateway",
       []) := by
  simp [createInternetGw, h1, h2]

/-- Witness for C3 at a concrete environment. -/
theorem createInternetGw_already_gateway_witness :
    createInternetGw { baseCtrlEnv with validateParams := some gwSampleNode } =
      (HandlerResult.successMessage "node is already acting as internet gateway",
       []) :=
  createInternetGw_already_gateway
    { baseCtrlEnv with validateParams := some gwSampleNode } gwSampleNode rfl rfl

/-- `sampleNode`, already a gateway, but owned by the Windows host. -/
def nodeGwOnWindows : Node :=
  { sampleNode with isInternetGateway := true, hostID := "h2" }

/-- Controller environment for the C4 counterexample: the target node is
already a gateway and its owning host is Windows-class. -/
def envGwOnWindows : CtrlEnv :=
  { baseCtrlEnv with
    validateParams := some nodeGwOnWindows
    getHost := fun i => if i = "h2" then some windowsHost else none }

/-- C4 counterexample: a promotion request against a node whose owning host
is Windows-class (not Linux) that returns the 200 informational success
response instead of a BadRequest error, because the already-a-gateway
short-circuit fires before the OS-class guard. -/
theorem createInternetGw_nonlinux_can_succeed :
    envGwOnWindows.validateParams = some nodeGwOnWindows ∧
    envGwOnWindows.getHost nodeGwOnWindows.hostID = some windowsHost ∧
    windowsHost.os = OSType.windows ∧
    (createInternetGw envGwOnWindows).1 =
      HandlerResult.successMessage "node is already acting as internet gateway" := by
  decide

/-- C4 (amended): a promotion request against a node that is not already an
internet gateway and whose owning host's OS class is not Linux fails with a
BadRequest error and emits no effect, regardless of the request body. -/
theorem createInternetGw_nonlinux_badrequest (env : CtrlEnv) (node : Node)
    (host : Host)
    (h1 : env.validateParams = some node)
    (h2 : node.isInternetGateway = false)
    (h3 : env.getHost node.hostID = some host)
    (h4 : host.os ≠ OSType.linux) :
    (createInternetGw env).1 = HandlerResult.errorResponse "badrequest" ∧
    (createInternetGw env).2 = [] := by
  cases hd : env.decodeBody <;>
    simp [createInternetGw, h1, h2, h3, h4, hd]

/-- Controller environment for the C4 witness: a non-gateway node owned by
the Windows host. -/
def envNodeOnWindows : CtrlEnv :=
  { baseCtrlEnv with
    validateParams := some { sampleNode with hostID := "h2" }
    getHost := fun i => if i = "h2" then some windowsHost else none }

/-- Witness for the amended C4 at a concrete environment. -/
theorem createInternetGw_nonlinux_badrequest_witness :
    (createInternetGw envNodeOnWindows).1 =
      HandlerResult.errorResponse "badrequest" ∧
    (createInternetGw envNodeOnWindows).2 = [] :=
  createInternetGw_nonlinux_badrequest envNodeOnWindows
    { sampleNode with hostID := "h2" } windowsHost rfl rfl (by decide)
    (by decide)

/-- An external client with both an IPv4 and an IPv6 address. -/
def clientBoth : ExtClient :=
  { clientID := "c1", network := "net1",
    address := "10.0.0.5", address6 := "fd00::5" }

/-- C9: evaluation of `getExtClientDNS` at a client whose IPv6 address
`"fd00::5"` is non-empty: the second (IPv6-conditional) record carries the
IPv4 address `"10.0.0.5"`, because the source assigns `client.Address`
rather than `client.Address6` in the IPv6 branch. -/
theorem getExtClientDNS_ipv6_record_carries_ipv4 :
    clientBoth.address6 = "fd00::5" ∧
    getExtClientDNS [clientBoth] =
      [{ action := DNSUpdateAction.insert, name := "c1.net1",
         address := "10.0.0.5" },
       { action := DNSUpdateAction.insert, name := "c1.net1",
         address := "10.0.0.5" }] := by
  decide

/-- C10: publishing a node update for a node whose owning host cannot be
found returns success (`nil`) and publishes nothing; and whenever
`NodeUpdate` returns an error, the owning host was found and the error is a
serialization or publish failure. -/
theorem NodeUpdate_spec (env : MqEnv) (node : Node) :
    (env.getHost node.hostID = none → NodeUpdate env node = (none, [])) ∧
    (∀ e, (NodeUpdate env node).1 = some e →
      (∃ h, env.getHost node.hostID = some h) ∧
        (e = MqErr.marshal ∨ e = MqErr.publishFail)) := by
  constructor
  · intro h
    simp [NodeUpdate, h]
  · intro e he
    cases hh : env.getHost node.hostID with
    | none => simp [NodeUpdate, hh] at he
    | some host =>
      refine ⟨⟨host, rfl⟩, ?_⟩
      by_cases hb : env.mqBackend <;>
        by_cases hm : env.marshalOK <;>
        by_cases hp : env.publishOK (nodeTopic node) <;>
        simp [NodeUpdate, hh, hb, hm, hp] at he <;>
        simp [← he]

/-- Witness for C10 at a concrete environment whose host lookup fails. -/
theorem NodeUpdate_spec_witness :
    NodeUpdate { baseMqEnv with getHost := fun _ => none } sampleNode =
      (none, []) :=
  (NodeUpdate_spec { baseMqEnv with getHost := fun _ => none } sampleNode).1 rfl

/-- C6: demotion unconditionally clears the gateway attributes, persists the
node and succeeds; it returns an error exactly when the persistence write
fails; and on a node that is already not a gateway (with cleared gateway
parameters) the cleared node is attribute-for-attribute the original node. -/
theorem deleteInternetGw_spec (env : CtrlEnv) (node : Node)
    (h1 : env.validateParams = some node) :
    ((∃ k, (deleteInternetGw env).1 = HandlerResult.errorResponse k) ↔
      env.upsertOK = false) ∧
    (env.upsertOK = true →
      deleteInternetGw env =
        (HandlerResult.okNode (UnsetInternetGw node),
         [CtrlEffect.upsertNode (UnsetInternetGw node),
          CtrlEffect.publishPeerUpdate])) ∧
    (UnsetInternetGw node).isInternetGateway = false ∧
    (node.isInternetGateway = false → node.inetNodeReq = InetNodeReq.empty →
      UnsetInternetGw node = node) := by
  refine ⟨?_, ?_, ?_, ?_⟩
  · by_cases hu : env.upsertOK <;> simp [deleteInternetGw, h1, hu]
  · intro hu
    simp [deleteInternetGw, h1, hu]
  · simp [UnsetInternetGw]
  · intro hgw hreq
    cases node
    simp_all [UnsetInternetGw]

/-- Witness for C6 at a concrete environment holding a non-gateway node. -/
theorem deleteInternetGw_spec_witness :
    deleteInternetGw baseCtrlEnv =
      (HandlerResult.okNode (UnsetInternetGw sampleNode),
       [CtrlEffect.upsertNode (UnsetInternetGw sampleNode),
        CtrlEffect.publishPeerUpdate]) ∧
    UnsetInternetGw sampleNode = sampleNode :=
  ⟨(deleteInternetGw_spec baseCtrlEnv sampleNode rfl).2.1 rfl,
   (deleteInternetGw_spec baseCtrlEnv sampleNode rfl).2.2.2 rfl rfl⟩

/-- C7: a gateway-update request against a node that is not currently an
internet gateway fails with a BadRequest error and emits no effect; against
a current gateway with a decodable, valid body it persists exactly
`SetInternetGw (UnsetInternetGw node) request` — the gateway attributes are
fully cleared and then re-applied from the new parameters before the
persistence write. -/
theorem updateInternetGw_spec (env : CtrlEnv) (node : Node)
    (h1 : env.validateParams = some node) :
    (node.isInternetGateway = false →
      (updateInternetGw env).1 = HandlerResult.errorResponse "badrequest" ∧
      (updateInternetGw env).2 = []) ∧
    (∀ req, node.isInternetGateway = true → env.decodeBody = some req →
      env.validateInetGwReq node req true = true → env.upsertOK = true →
      updateInternetGw env =
        (HandlerResult.okNode (SetInternetGw (UnsetInternetGw node) req),
         [CtrlEffect.upsertNode (SetInternetGw (UnsetInternetGw node) req),
          CtrlEffect.publishPeerUpdate])) := by
  constructor
  · intro hgw
    cases hd : env.decodeBody <;>
      simp [updateInternetGw, h1, hd, hgw]
  · intro req hgw hd hv hu
    simp [updateInternetGw, h1, hd, hgw, hv, hu]

/-- Witness for C7 at a concrete environment holding a gateway node. -/
theorem updateInternetGw_spec_witness :
    updateInternetGw { baseCtrlEnv with validateParams := some gwSampleNode } =
      (HandlerResult.okNode
        (SetInternetGw (UnsetInternetGw gwSampleNode) sampleReq),
       [CtrlEffect.upsertNode
          (SetInternetGw (UnsetInternetGw gwSampleNode) sampleReq),
        CtrlEffect.publishPeerUpdate]) :=
  (updateInternetGw_spec { baseCtrlEnv with validateParams := some gwSampleNode }
    gwSampleNode rfl).2 sampleReq rfl rfl rfl rfl

/-- C1 (amended): on a Pro server, every successful promotion leaves the
promoted node's network without an active failover peer once the handler's
effect trace — including the detached failover-reset task — has been
applied, and the promoted node is an active internet gateway: the two roles
are not both present for that network in the resulting state. -/
theorem createInternetGw_pro_clears_failover (env : CtrlEnv)
    (node₀ n : Node) (effs : List CtrlEffect)
    (hpro : env.isPro = true)
    (h1 : env.validateParams = some node₀)
    (hres : createInternetGw env = (HandlerResult.okNode n, effs)) :
    n.isInternetGateway = true ∧
    applyFailover env.failOverExists effs node₀.network = false := by
  unfold createInternetGw at hres
  rw [h1] at hres
  by_cases hgw : node₀.isInternetGateway = true
  · simp [hgw] at hres
  · cases hd : env.decodeBody with
    | none => simp [hgw, hd] at hres
    | some req =>
      cases hh : env.getHost node₀.hostID with
      | none => simp [hgw, hd, hh] at hres
      | some host =>
        by_cases hos : host.os = OSType.linux
        case neg => simp [hgw, hd, hh, hos] at hres
        case pos =>
          by_cases hv : env.validateInetGwReq node₀ req false = true
          case neg => simp [hgw, hd, hh, hos, hv] at hres
          case pos =>
            by_cases hu : env.upsertOK = true
            case neg => simp [hgw, hd, hh, hos, hv, hu] at hres
            case pos =>
              by_cases hf : env.failOverExists node₀.network = true <;>
                by_cases hdns : node₀.isGw = true ∧ node₀.ingressDNS = "" <;>
                simp [SetInternetGw, hgw, hd, hh, hos, hv, hu, hpro, hf,
                  hdns] at hres <;>
                obtain ⟨hn, he⟩ := hres <;>
                subst hn <;> subst he <;>
                simp_all [applyFailover]

/-- Controller environment for the C1 witness: a Pro server whose networks
all report an active failover peer. -/
def envProFailover : CtrlEnv :=
  { baseCtrlEnv with failOverExists := fun _ => true }

/-- Witness for the amended C1 at a concrete Pro environment. -/
theorem createInternetGw_pro_clears_failover_witness :
    gwSampleNode.isInternetGateway = true ∧
    applyFailover envProFailover.failOverExists
      [CtrlEffect.resetFailedOverPeer "net1", CtrlEffect.publishPeerUpdate,
       CtrlEffect.upsertNode gwSampleNode, CtrlEffect.publishPeerUpdate]
      sampleNode.network = false :=
  createInternetGw_pro_clears_failover envProFailover sampleNode gwSampleNode
    [CtrlEffect.resetFailedOverPeer "net1", CtrlEffect.publishPeerUpdate,
     CtrlEffect.upsertNode gwSampleNode, CtrlEffect.publishPeerUpdate]
    rfl rfl (by decide)

/-- Controller environment for the C1 counterexample: a non-Pro server whose
networks all report an active failover peer. -/
def envNonPro : CtrlEnv :=
  { baseCtrlEnv with isPro := false, failOverExists := fun _ => true }

/-- C1 counterexample: on a non-Pro server a promotion succeeds (200 with
the promoted node) while the network's active failover peer survives the
entire effect trace — the `servercfg.IsPro` guard skips the failover reset,
so the claim's unconditional exclusivity fails. -/
theorem createInternetGw_nonpro_keeps_failover :
    envNonPro.isPro = false ∧
    envNonPro.failOverExists sampleNode.network = true ∧
    createInternetGw envNonPro =
      (HandlerResult.okNode gwSampleNode,
       [CtrlEffect.upsertNode gwSampleNode, CtrlEffect.publishPeerUpdate]) ∧
    applyFailover envNonPro.failOverExists (createInternetGw envNonPro).2
      sampleNode.network = true := by
  decide

/-- When serialization and the per-host peer-view computation succeed, a
single-host publish emits exactly one peer-update attempt for that host,
whatever the broker outcome. -/
lemma PublishSingleHostPeerUpdate_effects (env : MqEnv) (host : Host)
    (nodes : List Node) (dn : Option Node) (dc : List ExtClient)
    (hm : env.marshalOK = true) (hp : env.peerViewOK host.id = true) :
    (PublishSingleHostPeerUpdate env host nodes dn dc).2 =
      [MqEffect.publishPeerUpdate host.id dn dc] := by
  by_cases h : env.publishOK (peersTopic env host) = true <;>
    simp [PublishSingleHostPeerUpdate, hm, hp, h]

/-- The deleted-node host loop appends one peer-update attempt per host to
the accumulator, in host-list order. -/
lemma deletedNodeStep_foldl (env : MqEnv) (nodes : List Node) (delNode : Node)
    (hm : env.marshalOK = true) (l : List Host) :
    ∀ acc : Option MqErr × List MqEffect,
      (∀ h ∈ l, env.peerViewOK h.id = true) →
      (l.foldl (deletedNodeStep env nodes delNode) acc).2 =
        acc.2 ++ l.map
          (fun h => MqEffect.publishPeerUpdate h.id (some delNode) []) := by
  induction l with
  | nil => intro acc _; simp
  | cons h t ih =>
    intro acc hall
    rw [List.foldl_cons, ih _ (fun x hx => hall x (List.mem_cons_of_mem _ hx))]
    have hh := PublishSingleHostPeerUpdate_effects env h nodes (some delNode)
      [] hm (hall h (List.mem_cons_self _ _))
    simp [deletedNodeStep, hh]

/-- The deleted-client host loop appends one peer-update attempt per
non-IoT host to the accumulator, in host-list order, skipping IoT hosts. -/
lemma deletedClientStep_foldl (env : MqEnv) (nodes : List Node)
    (delClient : ExtClient) (hm : env.marshalOK = true) (l : List Host) :
    ∀ acc : Option MqErr × List MqEffect,
      (∀ h ∈ l, env.peerViewOK h.id = true) →
      (l.foldl (deletedClientStep env nodes delClient) acc).2 =
        acc.2 ++ (l.filter fun h => h.os ≠ OSType.iot).map
          (fun h => MqEffect.publishPeerUpdate h.id none [delClient]) := by
  induction l with
  | nil => intro acc _; simp
  | cons h t ih =>
    intro acc hall
    rw [List.foldl_cons]
    by_cases hio : h.os = OSType.iot
    · rw [ih _ (fun x hx => hall x (List.mem_cons_of_mem _ hx))]
      simp [deletedClientStep, hio, List.filter_cons]
    · rw [ih _ (fun x hx => hall x (List.mem_cons_of_mem _ hx))]
      have hh := PublishSingleHostPeerUpdate_effects env h nodes none
        [delClient] hm (hall h (List.mem_cons_self _ _))
      simp [deletedClientStep, hio, hh, List.filter_cons]

/-- The forced-cycle broadcast loop of `sendPeers` appends one peer-update
attempt per host to the accumulator, in host-list order. -/
lemma sendPeers_foldl (env : MqEnv) (nodes : List Node)
    (hm : env.marshalOK = true) (l : List Host) :
    ∀ acc : List MqEffect,
      (∀ h ∈ l, env.peerViewOK h.id = true) →
      (l.foldl
        (fun effs host =>
          effs ++ (PublishSingleHostPeerUpdate env host nodes none []).2)
        acc) =
        acc ++ l.map (fun h => MqEffect.publishPeerUpdate h.id none []) := by
  induction l with
  | nil => intro acc _; simp
  | cons h t ih =>
    intro acc hall
    rw [List.foldl_cons, ih _ (fun x hx => hall x (List.mem_cons_of_mem _ hx))]
    have hh := PublishSingleHostPeerUpdate_effects env h nodes none []
      hm (hall h (List.mem_cons_self _ _))
    simp [hh]

/-- C2: the deletion coordinator (1) marks the passed node copy
pending-delete with the delete action, then emits, in order, (2) the
node-update effects (only when `sendNodeUpdate`), (3) the deleted-node
peer-broadcast effects, (4) the DNS refresh (only in DNS mode) — the
decomposition holds for every environment, so a failing step 2 or 3 never
suppresses the later steps; when the owning host resolves, step 2 carries
the marked node to that host, and under a reachable broker, step 3 reaches
every host with the marked node as the deleted-node overlay. -/
theorem PublishMqUpdatesForDeletedNode_spec (env : MqEnv) (node : Node)
    (sendNodeUpdate : Bool) (gwClients : List ExtClient) :
    (markDeleted node).pendingDelete = true ∧
    (markDeleted node).action = NODE_DELETE ∧
    PublishMqUpdatesForDeletedNode env node sendNodeUpdate gwClients =
      (if sendNodeUpdate then (NodeUpdate env (markDeleted node)).2 else []) ++
        (PublishDeletedNodePeerUpdate env (markDeleted node)).2 ++
        (if env.dnsMode then [MqEffect.setDNS] else []) ∧
    (∀ host, env.getHost node.hostID = some host → env.mqBackend = true →
        env.marshalOK = true →
      (NodeUpdate env (markDeleted node)).2 =
        [MqEffect.publishNodeUpdate host.id (markDeleted node)]) ∧
    (∀ nodes, env.mqBackend = true → env.hostsErr = false →
        env.allNodes = some nodes → env.marshalOK = true →
        (∀ h ∈ env.hostsList, env.peerViewOK h.id = true) →
      (PublishDeletedNodePeerUpdate env (markDeleted node)).2 =
        env.hostsList.map fun h =>
          MqEffect.publishPeerUpdate h.id (some (markDeleted node)) []) := by
  refine ⟨rfl, rfl, ?_, ?_, ?_⟩
  · simp [PublishMqUpdatesForDeletedNode, List.append_assoc]
  · intro host hh hb hm
    have hh' : env.getHost (markDeleted node).hostID = some host := hh
    by_cases hp : env.publishOK (nodeTopic (markDeleted node)) = true <;>
      simp [NodeUpdate, hh', hb, hm, hp]
  · intro nodes hb he hn hm hall
    have hfold := deletedNodeStep_foldl env nodes (markDeleted node) hm
      env.hostsList (none, []) hall
    simp [PublishDeletedNodePeerUpdate, hb, he, hn, hfold]

/-- Witness for C2 at a concrete environment. -/
theorem PublishMqUpdatesForDeletedNode_spec_witness :
    (markDeleted sampleNode).pendingDelete = true ∧
    (NodeUpdate baseMqEnv (markDeleted sampleNode)).2 =
      [MqEffect.publishNodeUpdate linuxHost.id (markDeleted sampleNode)] ∧
    (PublishDeletedNodePeerUpdate baseMqEnv (markDeleted sampleNode)).2 =
      baseMqEnv.hostsList.map (fun h =>
        MqEffect.publishPeerUpdate h.id (some (markDeleted sampleNode)) []) := by
  have h := PublishMqUpdatesForDeletedNode_spec baseMqEnv sampleNode true []
  exact ⟨h.1, h.2.2.2.1 linuxHost (by decide) rfl rfl,
    h.2.2.2.2 [sampleNode] rfl rfl rfl rfl (fun _ _ => rfl)⟩

/-- C5: on a tick where the node snapshot is available, the counter becomes
`0` exactly when the increment reaches 5 and `c + 1` otherwise; a non-forced
tick performs no effect at all; the forced tick refreshes the server host
record, runs the maintenance checkpoint and broadcasts one peer update per
known host; and along a run from counter `0`, the counter after `k` ticks
is `k % 5`. -/
theorem sendPeers_spec (env : MqEnv) (c : Nat) (nodes : List Node)
    (hn : env.allNodes = some nodes) :
    ((sendPeers env c).1 = if c + 1 = 5 then 0 else c + 1) ∧
    (c + 1 ≠ 5 → sendPeers env c = (c + 1, [])) ∧
    (c + 1 = 5 → env.marshalOK = true →
      (∀ h ∈ env.hostsList, env.peerViewOK h.id = true) →
      sendPeers env c =
        (0, [MqEffect.setHost, MqEffect.timerCheckpoint] ++
          env.hostsList.map fun h => MqEffect.publishPeerUpdate h.id none [])) ∧
    (∀ k, (fun m => (sendPeers env m).1)^[k] 0 = k % 5) := by
  refine ⟨?_, ?_, ?_, ?_⟩
  · by_cases h5 : c + 1 = 5 <;> simp [sendPeers, hn, h5]
  · intro h5
    simp [sendPeers, hn, h5]
  · intro h5 hm hall
    simp only [sendPeers, hn, h5, if_pos]
    rw [sendPeers_foldl env nodes hm env.hostsList [] hall]
    simp
  · intro k
    induction k with
    | zero => simp
    | succ k ih =>
      rw [Function.iterate_succ_apply', ih]
      by_cases h5 : k % 5 + 1 = 5 <;> simp [sendPeers, hn, h5] <;> omega

/-- Witness for C5 at a concrete environment: the forced fifth tick and a
non-forced tick. -/
theorem sendPeers_spec_witness :
    sendPeers baseMqEnv 4 =
      (0, [MqEffect.setHost, MqEffect.timerCheckpoint,
           MqEffect.publishPeerUpdate "h1" none [],
           MqEffect.publishPeerUpdate "h2" none []]) ∧
    sendPeers baseMqEnv 0 = (1, []) := by
  have h4 := (sendPeers_spec baseMqEnv 4 [sampleNode] rfl).2.2.1 rfl rfl
    (fun _ _ => rfl)
  have h0 := (sendPeers_spec baseMqEnv 0 [sampleNode] rfl).2.1 (by omega)
  exact ⟨by simpa [baseMqEnv, linuxHost, windowsHost] using h4, h0⟩

/-- An external client used for the deleted-client broadcast theorems. -/
def clientOnGw : ExtClient :=
  { clientID := "c2", network := "net1", address := "10.0.0.9", address6 := "" }

/-- MQ environment whose registry host list is a single IoT host. -/
def envOnlyIoT : MqEnv := { baseMqEnv with hostsList := [iotHost] }

/-- C8 counterexample: with the registry host list containing (only) an
IoT-class host, the deleted-client broadcast publishes nothing at all — the
host in the registry's host list receives no peer update. -/
theorem PublishDeletedClientPeerUpdate_skips_iot :
    envOnlyIoT.hostsList = [iotHost] ∧
    PublishDeletedClientPeerUpdate envOnlyIoT clientOnGw = (none, []) := by
  decide

/-- C8 (amended): under a reachable broker and registry, the deleted-client
broadcast sends one peer update carrying the client as deleted-client
overlay to exactly the hosts of the registry's host list whose OS class is
not IoT, in list order. -/
theorem PublishDeletedClientPeerUpdate_nonIoT (env : MqEnv)
    (client : ExtClient) (nodes : List Node)
    (hb : env.mqBackend = true) (he : env.hostsErr = false)
    (hn : env.allNodes = some nodes) (hm : env.marshalOK = true)
    (hall : ∀ h ∈ env.hostsList, env.peerViewOK h.id = true) :
    (PublishDeletedClientPeerUpdate env client).2 =
      (env.hostsList.filter fun h => h.os ≠ OSType.iot).map
        fun h => MqEffect.publishPeerUpdate h.id none [client] := by
  have hfold := deletedClientStep_foldl env nodes client hm
    env.hostsList (none, []) hall
  simp [PublishDeletedClientPeerUpdate, hb, he, hn, hfold]

/-- MQ environment holding one Linux host and one IoT host. -/
def envWithIoT : MqEnv := { baseMqEnv with hostsList := [linuxHost, iotHost] }

/-- Witness for the amended C8 at a concrete environment: the Linux host
receives the update, the IoT host does not. -/
theorem PublishDeletedClientPeerUpdate_nonIoT_witness :
    (PublishDeletedClientPeerUpdate envWithIoT clientOnGw).2 =
      [MqEffect.publishPeerUpdate "h1" none [clientOnGw]] := by
  have h := PublishDeletedClientPeerUpdate_nonIoT envWithIoT clientOnGw
    [sampleNode] rfl rfl rfl rfl (fun _ _ => rfl)
  simpa [envWithIoT, baseMqEnv, linuxHost, iotHost] using h

end Netmaker
